import Mathlib

/-!
Verification of the per-year subscription ledger (`data_manager.py`).

The store is modelled as an association list from year to file state
(a file may be absent, corrupt, or hold a well-formed record).  Python
dicts become association lists with insertion-order-preserving update,
`datetime.now()` becomes an explicit `now : Nat` argument, and floats
become rationals.
-/

/-- Python dict lookup `d.get(k)` on an association list. -/
def dictGet {K V : Type} [DecidableEq K] : List (K × V) → K → Option V
  | [], _ => none
  | (k', v) :: rest, k => if k' = k then some v else dictGet rest k

/-- Python dict assignment `d[k] = v`: replace in place, else append. -/
def dictSet {K V : Type} [DecidableEq K] : List (K × V) → K → V → List (K × V)
  | [], k, v => [(k, v)]
  | (k', v') :: rest, k, v =>
      if k' = k then (k, v) :: rest else (k', v') :: dictSet rest k v

/-- Python dict deletion `del d[k]` (no-op when the key is absent,
matching the `if k in d: del d[k]` idiom of the source). -/
def dictDel {K V : Type} [DecidableEq K] : List (K × V) → K → List (K × V)
  | [], _ => []
  | (k', v) :: rest, k =>
      if k' = k then dictDel rest k else (k', v) :: dictDel rest k

/-- A single payment-history record (`payment_history` entries). -/
structure HistoryEntry where
  timestamp : Nat
  member : String
  month : String
  action : String
  old_status : Bool
  new_status : Bool
  deriving DecidableEq, Repr

/-- The `settings` object of a year record. -/
structure Settings where
  total_price : ℚ
  max_slots : Int
  deriving DecidableEq, Repr

/-- One year's persisted record (the JSON structure of
`subscription_data_<year>.json`). -/
structure YearRecord where
  year : Int
  members : List String
  payments : List (String × List (String × Bool))
  payment_history : List HistoryEntry
  settings : Settings
  created_at : Nat
  updated_at : Nat
  deriving DecidableEq, Repr

/-- State of the backing file for one year: present and well-formed,
or present but with malformed content. -/
inductive FileState where
  | corrupt : FileState
  | good : YearRecord → FileState
  deriving DecidableEq, Repr

/-- The data directory: a finite map from year to file state.  A year
absent from the list has no backing file. -/
structure DM where
  store : List (Int × FileState)
  deriving DecidableEq, Repr

/-- The default structure returned by `load_data` for a missing or
corrupted file. -/
def defaultRecord (year : Int) (now : Nat) : YearRecord :=
  { year := year
    members := []
    payments := []
    payment_history := []
    settings := { total_price := 100, max_slots := 10 }
    created_at := now
    updated_at := now }

/-- `DataManager.load_data`: the stored record when the file exists and
parses, otherwise the default structure.  Never fails. -/
def load_data (dm : DM) (now : Nat) (year : Int) : YearRecord :=
  match dictGet dm.store year with
  | some (FileState.good r) => r
  | some FileState.corrupt => defaultRecord year now
  | none => defaultRecord year now

/-- `DataManager.save_data`: stamps `updated_at = now` and writes the
record over whatever the year's file held. -/
def save_data (dm : DM) (now : Nat) (year : Int) (data : YearRecord) : DM :=
  { store := dictSet dm.store year (FileState.good { data with updated_at := now }) }

/-- `DataManager.get_available_years`: the years with a backing file,
sorted ascending (Python `sorted`, a stable sort). -/
def get_available_years (dm : DM) : List Int :=
  (dm.store.map Prod.fst).insertionSort (fun a b => a ≤ b)

/-- `DataManager.create_year_data`: load (creating the default
structure) and save it back. -/
def create_year_data (dm : DM) (now : Nat) (year : Int) : DM :=
  save_data dm now year (load_data dm now year)

/-- `DataManager.copy_members_from_year`: copy the member list from
source to target, reinitialise every copied member's payments to empty,
and save the target. -/
def copy_members_from_year (dm : DM) (now : Nat) (source_year target_year : Int) : DM :=
  let source_data := load_data dm now source_year
  let target_data := load_data dm now target_year
  let target_data := { target_data with members := source_data.members }
  let target_data :=
    { target_data with
      payments := target_data.members.foldl (fun p m => dictSet p m []) [] }
  save_data dm now target_year target_data

/-- `DataManager.add_member`: append the name and create an empty
payments entry, unless the name is already a member (then nothing is
written). -/
def add_member (dm : DM) (now : Nat) (year : Int) (member_name : String) : DM :=
  let data := load_data dm now year
  if member_name ∈ data.members then dm
  else
    save_data dm now year
      { data with
        members := data.members ++ [member_name]
        payments := dictSet data.payments member_name [] }

/-- `DataManager.remove_member`: drop the name from the member list and
delete its payments entry, unless the name is absent (then nothing is
written). -/
def remove_member (dm : DM) (now : Nat) (year : Int) (member_name : String) : DM :=
  let data := load_data dm now year
  if member_name ∈ data.members then
    save_data dm now year
      { data with
        members := data.members.erase member_name
        payments := dictDel data.payments member_name }
  else dm

/-- `DataManager.update_payment`: ensure a payments entry for the
member, read the old flag (default false), append a history entry when
the flag changes, then write the new flag and save. -/
def update_payment (dm : DM) (now : Nat) (year : Int)
    (member_name month : String) (paid : Bool) : DM :=
  let data := load_data dm now year
  let data :=
    if (dictGet data.payments member_name).isSome then data
    else { data with payments := dictSet data.payments member_name [] }
  let member_payments := (dictGet data.payments member_name).getD []
  let old_status := (dictGet member_payments month).getD false
  let data :=
    if old_status ≠ paid then
      { data with
        payment_history := data.payment_history ++
          [{ timestamp := now
             member := member_name
             month := month
             action := if paid then "marked_paid" else "marked_unpaid"
             old_status := old_status
             new_status := paid }] }
    else data
  let data :=
    { data with
      payments := dictSet data.payments member_name (dictSet member_payments month paid) }
  save_data dm now year data

/-- `DataManager.update_settings`: overwrite both settings fields and
save. -/
def update_settings (dm : DM) (now : Nat) (year : Int)
    (total_price : ℚ) (max_slots : Int) : DM :=
  let data := load_data dm now year
  save_data dm now year
    { data with settings := { total_price := total_price, max_slots := max_slots } }

/-- `DataManager.get_member_payments`. -/
def get_member_payments (dm : DM) (now : Nat) (year : Int)
    (member_name : String) : List (String × Bool) :=
  ((dictGet (load_data dm now year).payments member_name).getD [])

/-- `DataManager.bulk_update_payments`: ensure a payments entry, write
the flag for every listed month (no history logging), and save. -/
def bulk_update_payments (dm : DM) (now : Nat) (year : Int)
    (member_name : String) (months : List String) (paid : Bool) : DM :=
  let data := load_data dm now year
  let data :=
    if (dictGet data.payments member_name).isSome then data
    else { data with payments := dictSet data.payments member_name [] }
  let member_payments :=
    months.foldl (fun pm month => dictSet pm month paid)
      ((dictGet data.payments member_name).getD [])
  save_data dm now year
    { data with payments := dictSet data.payments member_name member_payments }

/-- Ordering used when sorting history newest-first (Python
`sorted(key=timestamp, reverse=True)`). -/
def histDesc (a b : HistoryEntry) : Prop := b.timestamp ≤ a.timestamp

instance : DecidableRel histDesc := fun a b => Nat.decLe b.timestamp a.timestamp

/-- Python slicing `l[:n]` for an integer `n` (negative `n` counts from
the end). -/
def pySliceTo {α : Type} (l : List α) (n : Int) : List α :=
  if 0 ≤ n then l.take n.toNat else l.take (l.length - (-n).toNat)

/-- `DataManager.get_payment_history`: the year's history, optionally
filtered to one member (a falsy filter — `None` or the empty string —
is ignored), sorted newest first, truncated only when `limit` is truthy
(so `None` and `0` both mean no truncation). -/
def get_payment_history (dm : DM) (now : Nat) (year : Int)
    (member_name : Option String) (limit : Option Int) : List HistoryEntry :=
  let data := load_data dm now year
  let history := data.payment_history
  let history :=
    match member_name with
    | some m => if m = "" then history else history.filter (fun h => h.member = m)
    | none => history
  let history := history.insertionSort histDesc
  match limit with
  | some n => if n ≠ 0 then pySliceTo history n else history
  | none => history

/-- The 12 fixed month codes. -/
def monthCodes : List String :=
  ["Jan", "Feb", "Mar", "Apr", "May", "Jun",
   "Jul", "Aug", "Sep", "Oct", "Nov", "Dec"]

/-- The aggregate returned by `get_payment_summary`. -/
structure Summary where
  total_members : Nat
  total_possible_amount : ℚ
  total_paid_amount : ℚ
  total_outstanding_amount : ℚ
  overall_payment_rate : ℚ
  deriving DecidableEq, Repr

/-- Division that records, rather than hides, a zero divisor: `none`
models Python's `ZeroDivisionError`. -/
def safeDiv (a b : ℚ) : Option ℚ := if b = 0 then none else some (a / b)

/-- Months a member has flagged paid among the 12 codes. -/
def monthsPaid (member_payments : List (String × Bool)) : Nat :=
  (monthCodes.filter (fun m => (dictGet member_payments m).getD false)).length

/-- `DataManager.get_payment_summary`: all-zero aggregate for an empty
member list, otherwise totals derived from price-per-slot.  `none`
would indicate a division by zero. -/
def get_payment_summary (dm : DM) (now : Nat) (year : Int) : Option Summary :=
  let data := load_data dm now year
  let members := data.members
  let payments := data.payments
  let settings := data.settings
  if members = [] then
    some { total_members := 0
           total_possible_amount := 0
           total_paid_amount := 0
           total_outstanding_amount := 0
           overall_payment_rate := 0 }
  else do
    let price_per_slot ← safeDiv settings.total_price (members.length : ℚ)
    let total_possible := (members.length : ℚ) * 12 * price_per_slot
    let total_paid :=
      members.foldl
        (fun acc member =>
          acc + (monthsPaid ((dictGet payments member).getD []) : ℚ) * price_per_slot)
        0
    let rate ←
      if 0 < total_possible then
        (safeDiv total_paid total_possible).map (fun x => x * 100)
      else some 0
    return { total_members := members.length
             total_possible_amount := total_possible
             total_paid_amount := total_paid
             total_outstanding_amount := total_possible - total_paid
             overall_payment_rate := rate }

/-- The decimal digit character for a digit value. -/
def toDigitChar (d : Nat) : Char := Char.ofNat (48 + d)

/-- Little-endian decimal digits of a natural number, fuel-indexed so
that the definition is structural. -/
def natDigitsRevAux : Nat → Nat → List Char
  | 0, _ => []
  | fuel + 1, n =>
      if n < 10 then [toDigitChar n]
      else toDigitChar (n % 10) :: natDigitsRevAux fuel (n / 10)

/-- Python `str` on a natural number: its decimal digits. -/
def pyStrNat (n : Nat) : String := String.mk (natDigitsRevAux (n + 1) n).reverse

/-- Python `str` on an integer: optional minus sign, then digits. -/
def pyStrInt (i : Int) : String :=
  if i < 0 then "-" ++ pyStrNat (-i).toNat else pyStrNat i.toNat

/-- Decimal parse of a digit string: `none` unless nonempty and all
digits. -/
def digitsToNat (cs : List Char) : Option Nat :=
  if cs ≠ [] ∧ cs.all Char.isDigit then
    some (cs.foldl (fun n c => n * 10 + (c.toNat - 48)) 0)
  else none

/-- Python `int` on a string: optional minus sign then decimal digits;
`none` models `ValueError`. -/
def pyInt (s : String) : Option Int :=
  if s.data.head? = some '-' then (digitsToNat s.data.tail).map (fun n => -(n : Int))
  else (digitsToNat s.data).map (fun n => (n : Int))

/-- The full-backup bundle (`backup_timestamp` plus the map from
year-string to year record). -/
structure Backup where
  backup_timestamp : Nat
  years : List (String × YearRecord)
  deriving DecidableEq, Repr

/-- `DataManager.create_full_backup`: embed every available year's
loaded record under its stringified year. -/
def create_full_backup (dm : DM) (now : Nat) : Backup :=
  { backup_timestamp := now
    years := (get_available_years dm).map
      (fun year => (pyStrInt year, load_data dm now year)) }

/-- The parse of the string handed to `restore_from_backup`: either not
JSON at all (`json.loads` raises), or JSON whose top level may or may
not carry the `years` mapping. -/
inductive BackupInput where
  | notJson : BackupInput
  | json : Option (List (String × YearRecord)) → BackupInput

/-- One iteration of the restore loop: coerce the key to a year (skip
on failure), save the record verbatim, and append the year to the
restored list. -/
def restoreStep (now : Nat) (st : DM × List Int) (entry : String × YearRecord) :
    DM × List Int :=
  match pyInt entry.1 with
  | some year => (save_data st.1 now year entry.2, st.2 ++ [year])
  | none => st

/-- `DataManager.restore_from_backup`: validation failures leave the
store untouched; otherwise each coercible entry is written and the
result reports how many years were restored. -/
def restore_from_backup (dm : DM) (now : Nat) (input : BackupInput) :
    DM × Bool × String :=
  match input with
  | BackupInput.notJson => (dm, false, "Invalid JSON format")
  | BackupInput.json none =>
      (dm, false, "Invalid backup format: missing \x27years\x27 key")
  | BackupInput.json (some years) =>
      let st := years.foldl (restoreStep now) (dm, [])
      if st.2 ≠ [] then
        (st.1, true,
          "Successfully restored " ++ pyStrNat st.2.length ++ " year(s): " ++
            String.intercalate ", " (st.2.map pyStrInt))
      else (st.1, false, "No valid year data found in backup")

/-- A concrete record used by witnesses. -/
def recA : YearRecord :=
  { year := 2024
    members := ["Alice"]
    payments := [("Alice", [("Jan", true)])]
    payment_history :=
      [{ timestamp := 1, member := "Alice", month := "Jan",
         action := "marked_paid", old_status := false, new_status := true }]
    settings := { total_price := 100, max_slots := 10 }
    created_at := 0
    updated_at := 0 }

/-- A concrete one-year store used by witnesses. -/
def dmA : DM := { store := [(2024, FileState.good recA)] }

/-- The history entry `update_payment` appends on a change. -/
def changeEntry (now : Nat) (member_name month : String)
    (old_status paid : Bool) : HistoryEntry :=
  { timestamp := now, member := member_name, month := month,
    action := if paid then "marked_paid" else "marked_unpaid",
    old_status := old_status, new_status := paid }

/-- The flag `update_payment` reads for `(member_name, month)`:
`false` when unset. -/
def currentFlag (data : YearRecord) (member_name month : String) : Bool :=
  (dictGet ((dictGet data.payments member_name).getD []) month).getD false

theorem dictGet_dictSet_self {K V : Type} [DecidableEq K]
    (d : List (K × V)) (k : K) (v : V) : dictGet (dictSet d k v) k = some v := by
  induction d with
  | nil => simp [dictSet, dictGet]
  | cons p rest ih =>
      obtain ⟨k', v'⟩ := p
      by_cases h : k' = k <;> simp [dictSet, dictGet, h, ih]

theorem dictGet_dictSet_ne {K V : Type} [DecidableEq K]
    (d : List (K × V)) (k k' : K) (v : V) (h : k' ≠ k) :
    dictGet (dictSet d k v) k' = dictGet d k' := by
  have hne : ¬ k = k' := fun hh => h hh.symm
  induction d with
  | nil => simp [dictSet, dictGet, hne]
  | cons p rest ih =>
      obtain ⟨k₀, v₀⟩ := p
      by_cases h0 : k₀ = k
      · subst h0
        simp [dictSet, dictGet, hne]
      · simp [dictSet, dictGet, h0, ih]

theorem dictSet_dictSet_self {K V : Type} [DecidableEq K]
    (d : List (K × V)) (k : K) (v w : V) :
    dictSet (dictSet d k v) k w = dictSet d k w := by
  induction d with
  | nil => simp [dictSet]
  | cons p rest ih =>
      obtain ⟨k', v'⟩ := p
      by_cases h : k' = k <;> simp [dictSet, h, ih]

theorem load_after_save (dm : DM) (now now' : Nat) (year : Int) (d : YearRecord) :
    load_data (save_data dm now year d) now' year = { d with updated_at := now } := by
  simp [load_data, save_data, dictGet_dictSet_self]

theorem load_after_save_ne (dm : DM) (now now' : Nat) (year year' : Int)
    (d : YearRecord) (h : year' ≠ year) :
    load_data (save_data dm now year d) now' year' = load_data dm now' year' := by
  simp [load_data, save_data, dictGet_dictSet_ne _ _ _ _ h]

theorem toDigitChar_isDigit (d : Nat) (h : d < 10) : (toDigitChar d).isDigit = true := by
  interval_cases d <;> decide

theorem toDigitChar_toNat (d : Nat) (h : d < 10) : (toDigitChar d).toNat - 48 = d := by
  interval_cases d <;> decide

theorem natDigitsRevAux_spec (fuel : Nat) : ∀ n, n < fuel →
    natDigitsRevAux fuel n ≠ [] ∧
    (natDigitsRevAux fuel n).all Char.isDigit = true ∧
    (natDigitsRevAux fuel n).foldr (fun c acc => acc * 10 + (c.toNat - 48)) 0 = n := by
  induction fuel with
  | zero => intro n h; omega
  | succ fuel ih =>
      intro n h
      by_cases h10 : n < 10
      · refine ⟨by simp [natDigitsRevAux, h10], ?_, ?_⟩
        · simp [natDigitsRevAux, h10, toDigitChar_isDigit n h10]
        · simp [natDigitsRevAux, h10, toDigitChar_toNat n h10]
      · have hdiv : n / 10 < fuel := by omega
        obtain ⟨hne, hdig, hval⟩ := ih (n / 10) hdiv
        refine ⟨by simp [natDigitsRevAux, h10], ?_, ?_⟩
        · simp [natDigitsRevAux, h10, hdig,
            toDigitChar_isDigit (n % 10) (Nat.mod_lt n (by omega))]
        · simp [natDigitsRevAux, h10, hval,
            toDigitChar_toNat (n % 10) (Nat.mod_lt n (by omega))]
          omega

theorem digitsToNat_pyStrNat (n : Nat) : digitsToNat (pyStrNat n).data = some n := by
  obtain ⟨hne, hdig, hval⟩ := natDigitsRevAux_spec (n + 1) n (Nat.lt_succ_self n)
  have hdata : (pyStrNat n).data = (natDigitsRevAux (n + 1) n).reverse := rfl
  rw [hdata]
  have hne' : (natDigitsRevAux (n + 1) n).reverse ≠ [] := by
    simpa using hne
  have hdig' : ((natDigitsRevAux (n + 1) n).reverse).all Char.isDigit = true := by
    simpa using hdig
  rw [digitsToNat, if_pos ⟨hne', hdig'⟩]
  rw [List.foldl_reverse]
  exact congrArg some hval

theorem pyStrNat_all_digits (n : Nat) : (pyStrNat n).data.all Char.isDigit = true := by
  obtain ⟨hne, hdig, _⟩ := natDigitsRevAux_spec (n + 1) n (Nat.lt_succ_self n)
  have hdata : (pyStrNat n).data = (natDigitsRevAux (n + 1) n).reverse := rfl
  rw [hdata]
  simpa using hdig

theorem pyStrNat_ne_nil (n : Nat) : (pyStrNat n).data ≠ [] := by
  obtain ⟨hne, _, _⟩ := natDigitsRevAux_spec (n + 1) n (Nat.lt_succ_self n)
  have hdata : (pyStrNat n).data = (natDigitsRevAux (n + 1) n).reverse := rfl
  rw [hdata]
  simpa using hne

theorem pyInt_pyStrInt (i : Int) : pyInt (pyStrInt i) = some i := by
  by_cases h : i < 0
  · have hdata : (pyStrInt i).data = '-' :: (pyStrNat (-i).toNat).data := by
      simp [pyStrInt, h]
    rw [pyInt, hdata]
    simp only [List.head?_cons, List.tail_cons, if_pos rfl]
    rw [digitsToNat_pyStrNat]
    simp
    omega
  · have hdata : (pyStrInt i).data = (pyStrNat i.toNat).data := by
      simp [pyStrInt, h]
    obtain ⟨c, cs, hcons⟩ := List.exists_cons_of_ne_nil (pyStrNat_ne_nil i.toNat)
    have hcdig : c.isDigit = true := by
      have := pyStrNat_all_digits i.toNat
      rw [hcons] at this
      simp [List.all_cons] at this
      exact this.1
    have hcne : ¬ c = '-' := by
      intro hc
      rw [hc] at hcdig
      exact absurd hcdig (by decide)
    rw [pyInt, hdata, hcons]
    simp only [List.head?_cons]
    rw [if_neg (by simp [hcne])]
    rw [← hcons, digitsToNat_pyStrNat]
    simp
    omega

/-- C5: for a year whose file is missing or malformed, `load_data`
returns the fresh default record: empty members, payments and history,
and settings `total_price = 100.0`, `max_slots = 10`. -/
theorem C5_load_default (dm : DM) (now : Nat) (year : Int)
    (h : dictGet dm.store year = none ∨ dictGet dm.store year = some FileState.corrupt) :
    load_data dm now year =
      { year := year, members := [], payments := [], payment_history := [],
        settings := { total_price := 100, max_slots := 10 },
        created_at := now, updated_at := now } := by
  rcases h with h | h <;> simp [load_data, h, defaultRecord]

/-- Witness for C5 at the empty store. -/
theorem C5_load_default_witness :
    load_data { store := [] } 7 2024 =
      { year := 2024, members := [], payments := [], payment_history := [],
        settings := { total_price := 100, max_slots := 10 },
        created_at := 7, updated_at := 7 } :=
  C5_load_default { store := [] } 7 2024 (Or.inl rfl)

/-- C6: with an empty member list the payment summary is the all-zero
aggregate, and no division by zero occurs (the result is `some`, where
`none` would signal a zero divisor). -/
theorem C6_summary_empty_members (dm : DM) (now : Nat) (year : Int)
    (h : (load_data dm now year).members = []) :
    get_payment_summary dm now year =
      some { total_members := 0, total_possible_amount := 0, total_paid_amount := 0,
             total_outstanding_amount := 0, overall_payment_rate := 0 } := by
  simp [get_payment_summary, h]

/-- Witness for C6 at the empty store. -/
theorem C6_summary_empty_members_witness :
    get_payment_summary { store := [] } 3 2024 =
      some { total_members := 0, total_possible_amount := 0, total_paid_amount := 0,
             total_outstanding_amount := 0, overall_payment_rate := 0 } :=
  C6_summary_empty_members { store := [] } 3 2024 rfl

/-- C9: a zero `limit` is falsy in Python, so `get_payment_history`
with `limit = 0` returns exactly what it returns with no limit; in
particular for a non-empty history the result is non-empty, not the
empty truncation. -/
theorem C9_zero_limit_full_history (dm : DM) (now : Nat) (year : Int)
    (member_name : Option String) :
    get_payment_history dm now year member_name (some 0) =
      get_payment_history dm now year member_name none ∧
    ((load_data dm now year).payment_history ≠ [] →
      get_payment_history dm now year none (some 0) ≠ []) := by
  constructor
  · simp [get_payment_history]
  · intro hne
    have hp := List.perm_insertionSort histDesc (load_data dm now year).payment_history
    simp only [get_payment_history]
    simp only [ne_eq, not_true_eq_false, if_false]
    intro hc
    rw [hc] at hp
    exact hne hp.symm.eq_nil

/-- Witness for C9 on a store with one history entry. -/
theorem C9_zero_limit_full_history_witness :
    get_payment_history dmA 0 2024 none (some 0) ≠ [] :=
  (C9_zero_limit_full_history dmA 0 2024 none).2 (by decide)

theorem update_payment_eq (dm : DM) (now : Nat) (year : Int)
    (member_name month : String) (paid : Bool) :
    update_payment dm now year member_name month paid =
      save_data dm now year
        { load_data dm now year with
          payments :=
            dictSet (load_data dm now year).payments member_name
              (dictSet ((dictGet (load_data dm now year).payments member_name).getD [])
                month paid)
          payment_history :=
            (load_data dm now year).payment_history ++
              (if currentFlag (load_data dm now year) member_name month ≠ paid then
                [changeEntry now member_name month
                  (currentFlag (load_data dm now year) member_name month) paid]
              else []) } := by
  cases hopt : dictGet (load_data dm now year).payments member_name with
  | some pm =>
      by_cases hch : ((dictGet pm month).getD false) = paid
      · simp [update_payment, hopt, hch, currentFlag, changeEntry]
      · simp [update_payment, hopt, hch, currentFlag, changeEntry]
  | none =>
      cases paid <;>
        simp [update_payment, hopt, currentFlag, changeEntry,
          dictGet_dictSet_self, dictSet_dictSet_self, dictGet]

/-- C4: `update_payment` always writes the new flag; it appends a
history entry exactly when the stored flag (default `false`) changes,
and that entry is `changeEntry` — action `marked_paid` iff `paid`,
recording the old and new statuses; a second identical call appends no
further entry. -/
theorem C4_update_payment_semantics (dm : DM) (now now2 now3 : Nat) (year : Int)
    (member_name month : String) (paid : Bool) :
    (dictGet ((dictGet (load_data (update_payment dm now year member_name month paid)
        now2 year).payments member_name).getD []) month = some paid) ∧
    (currentFlag (load_data dm now year) member_name month = paid →
      (load_data (update_payment dm now year member_name month paid) now2
          year).payment_history =
        (load_data dm now year).payment_history) ∧
    (currentFlag (load_data dm now year) member_name month ≠ paid →
      (load_data (update_payment dm now year member_name month paid) now2
          year).payment_history =
        (load_data dm now year).payment_history ++
          [changeEntry now member_name month
            (currentFlag (load_data dm now year) member_name month) paid]) ∧
    ((load_data (update_payment (update_payment dm now year member_name month paid)
        now3 year member_name month paid) now2 year).payment_history =
      (load_data (update_payment dm now year member_name month paid) now2
          year).payment_history) := by
  have heq := update_payment_eq dm now year member_name month paid
  refine ⟨?_, ?_, ?_, ?_⟩
  · rw [heq, load_after_save]
    simp [dictGet_dictSet_self]
  · intro h
    rw [heq, load_after_save]
    simp [h]
  · intro h
    rw [heq, load_after_save]
    simp [h]
  · rw [heq, update_payment_eq]
    simp [load_after_save, currentFlag, dictGet_dictSet_self]

/-- Witness for C4: marking Alice paid for Feb (currently unset)
appends exactly the expected history entry. -/
theorem C4_update_payment_semantics_witness :
    currentFlag (load_data dmA 0 2024) "Alice" "Feb" ≠ true ∧
    (load_data (update_payment dmA 0 2024 "Alice" "Feb" true) 1 2024).payment_history =
      (load_data dmA 0 2024).payment_history ++
        [changeEntry 0 "Alice" "Feb"
          (currentFlag (load_data dmA 0 2024) "Alice" "Feb") true] :=
  ⟨by decide,
    (C4_update_payment_semantics dmA 0 1 2 2024 "Alice" "Feb" true).2.2.1 (by decide)⟩

theorem bulk_update_payments_eq (dm : DM) (now : Nat) (year : Int)
    (member_name : String) (months : List String) (paid : Bool) :
    bulk_update_payments dm now year member_name months paid =
      save_data dm now year
        { load_data dm now year with
          payments :=
            dictSet (load_data dm now year).payments member_name
              (months.foldl (fun pm month => dictSet pm month paid)
                ((dictGet (load_data dm now year).payments member_name).getD [])) } := by
  cases hopt : dictGet (load_data dm now year).payments member_name with
  | some pm => simp [bulk_update_payments, hopt]
  | none =>
      simp [bulk_update_payments, hopt, dictGet_dictSet_self, dictSet_dictSet_self]

/-- C10: `update_payment` and `bulk_update_payments` succeed for any
name, member or not: they create a payments entry for the name, leave
the member list unchanged (so the payments mapping may gain non-member
keys), and every name that already had a payments entry keeps one. -/
theorem C10_update_payment_nonmember (dm : DM) (now now2 : Nat) (year : Int)
    (member_name month : String) (months : List String) (paid : Bool) :
    (dictGet (load_data (update_payment dm now year member_name month paid) now2
        year).payments member_name).isSome ∧
    (dictGet (load_data (bulk_update_payments dm now year member_name months paid) now2
        year).payments member_name).isSome ∧
    (load_data (update_payment dm now year member_name month paid) now2 year).members =
      (load_data dm now year).members ∧
    (load_data (bulk_update_payments dm now year member_name months paid) now2
        year).members = (load_data dm now year).members ∧
    (∀ m : String, (dictGet (load_data dm now year).payments m).isSome →
      (dictGet (load_data (update_payment dm now year member_name month paid) now2
          year).payments m).isSome) ∧
    (∀ m : String, (dictGet (load_data dm now year).payments m).isSome →
      (dictGet (load_data (bulk_update_payments dm now year member_name months paid) now2
          year).payments m).isSome) := by
  have h1 := update_payment_eq dm now year member_name month paid
  have hb := bulk_update_payments_eq dm now year member_name months paid
  refine ⟨?_, ?_, ?_, ?_, ?_, ?_⟩
  · rw [h1, load_after_save]
    simp [dictGet_dictSet_self]
  · rw [hb, load_after_save]
    simp [dictGet_dictSet_self]
  · rw [h1, load_after_save]
  · rw [hb, load_after_save]
  · intro m hm
    rw [h1, load_after_save]
    by_cases hmn : m = member_name
    · subst hmn
      simp [dictGet_dictSet_self]
    · simp only []
      rw [dictGet_dictSet_ne _ _ _ _ hmn]
      exact hm
  · intro m hm
    rw [hb, load_after_save]
    by_cases hmn : m = member_name
    · subst hmn
      simp [dictGet_dictSet_self]
    · simp only []
      rw [dictGet_dictSet_ne _ _ _ _ hmn]
      exact hm

/-- Witness for C10: updating a non-member name on the sample store. -/
theorem C10_update_payment_nonmember_witness :
    (dictGet (load_data (update_payment dmA 1 2024 "Zoe" "Mar" true) 2
        2024).payments "Zoe").isSome ∧
    (dictGet (load_data (update_payment dmA 1 2024 "Zoe" "Mar" true) 2
        2024).payments "Alice").isSome :=
  ⟨(C10_update_payment_nonmember dmA 1 2 2024 "Zoe" "Mar" ["Mar"] true).1,
    (C10_update_payment_nonmember dmA 1 2 2024 "Zoe" "Mar" ["Mar"] true).2.2.2.2.1
      "Alice" (by decide)⟩

theorem add_member_eq (dm : DM) (now : Nat) (year : Int) (member_name : String)
    (h : member_name ∉ (load_data dm now year).members) :
    add_member dm now year member_name =
      save_data dm now year
        { load_data dm now year with
          members := (load_data dm now year).members ++ [member_name]
          payments := dictSet (load_data dm now year).payments member_name [] } := by
  simp [add_member, h]

theorem remove_member_eq (dm : DM) (now : Nat) (year : Int) (member_name : String)
    (h : member_name ∈ (load_data dm now year).members) :
    remove_member dm now year member_name =
      save_data dm now year
        { load_data dm now year with
          members := (load_data dm now year).members.erase member_name
          payments := dictDel (load_data dm now year).payments member_name } := by
  simp [remove_member, h]

/-- C7 counterexample: when the name is already a member, `add_member`
is a no-op, so the subsequent `remove_member` leaves the member list
strictly smaller than before the pair of calls. -/
theorem C7_add_remove_counterexample :
    (load_data (remove_member (add_member dmA 1 2024 "Alice") 2 2024 "Alice") 3
        2024).members ≠ (load_data dmA 1 2024).members := by
  decide

/-- C7 (amended): for a name not already in the member list,
`add_member` followed by `remove_member` restores the member list, and
the payment history is exactly what the two operations produced — both
leave it untouched. -/
theorem C7_add_remove_roundtrip (dm : DM) (now now2 now3 : Nat) (year : Int)
    (member_name : String) (h : member_name ∉ (load_data dm now year).members) :
    (load_data (remove_member (add_member dm now year member_name) now2 year
        member_name) now3 year).members = (load_data dm now year).members ∧
    (load_data (remove_member (add_member dm now year member_name) now2 year
        member_name) now3 year).payment_history =
      (load_data dm now year).payment_history := by
  have hmem2 : member_name ∈
      (load_data (add_member dm now year member_name) now2 year).members := by
    rw [add_member_eq dm now year member_name h, load_after_save]
    simp
  rw [remove_member_eq (add_member dm now year member_name) now2 year member_name hmem2]
  rw [load_after_save]
  rw [add_member_eq dm now year member_name h]
  rw [load_after_save]
  constructor
  · show ((load_data dm now year).members ++ [member_name]).erase member_name =
      (load_data dm now year).members
    rw [List.erase_append_right _ h]
    simp
  · rfl

/-- Witness for C7 (amended) with a fresh name on the sample store. -/
theorem C7_add_remove_roundtrip_witness :
    (load_data (remove_member (add_member dmA 1 2024 "Bob") 2 2024 "Bob") 3
        2024).members = (load_data dmA 1 2024).members :=
  (C7_add_remove_roundtrip dmA 1 2 3 2024 "Bob" (by decide)).1

theorem copy_members_from_year_eq (dm : DM) (now : Nat)
    (source_year target_year : Int) :
    copy_members_from_year dm now source_year target_year =
      save_data dm now target_year
        { load_data dm now target_year with
          members := (load_data dm now source_year).members
          payments := (load_data dm now source_year).members.foldl
            (fun p m => dictSet p m []) [] } := rfl

theorem dictGet_foldl_setEmpty (l : List String)
    (d : List (String × List (String × Bool))) (x : String) :
    dictGet (l.foldl (fun p m => dictSet p m []) d) x =
      if x ∈ l then some [] else dictGet d x := by
  induction l generalizing d with
  | nil => simp
  | cons m rest ih =>
      simp only [List.foldl_cons]
      rw [ih]
      by_cases hx : x ∈ rest
      · simp [hx]
      · by_cases hxm : x = m
        · subst hxm
          simp [hx, dictGet_dictSet_self]
        · simp [hx, hxm, dictGet_dictSet_ne _ _ _ _ hxm]

/-- C8 counterexample: with equal source and target years the call
rewrites the source record itself — its payments are reset. -/
theorem C8_copy_same_year_counterexample :
    (load_data (copy_members_from_year dmA 1 2024 2024) 2 2024).payments ≠
      (load_data dmA 1 2024).payments := by
  decide

/-- C8 (amended): for distinct source and target years,
`copy_members_from_year` overwrites the target's members with the
source's, resets every copied member's payments entry to empty (and
keeps no other payments keys), leaves the target's history and settings
unchanged, and the source's file is untouched. -/
theorem C8_copy_members_semantics (dm : DM) (now now2 : Nat)
    (source_year target_year : Int) (h : source_year ≠ target_year) :
    (load_data (copy_members_from_year dm now source_year target_year) now2
        target_year).members = (load_data dm now source_year).members ∧
    (∀ m : String,
      dictGet (load_data (copy_members_from_year dm now source_year target_year) now2
          target_year).payments m =
        if m ∈ (load_data dm now source_year).members then some [] else none) ∧
    (load_data (copy_members_from_year dm now source_year target_year) now2
        target_year).payment_history = (load_data dm now target_year).payment_history ∧
    (load_data (copy_members_from_year dm now source_year target_year) now2
        target_year).settings = (load_data dm now target_year).settings ∧
    dictGet (copy_members_from_year dm now source_year target_year).store source_year =
      dictGet dm.store source_year := by
  rw [copy_members_from_year_eq]
  refine ⟨?_, ?_, ?_, ?_, ?_⟩
  · rw [load_after_save]
  · intro m
    rw [load_after_save]
    show dictGet ((load_data dm now source_year).members.foldl
      (fun p m => dictSet p m []) []) m = _
    rw [dictGet_foldl_setEmpty]
    by_cases hm : m ∈ (load_data dm now source_year).members <;> simp [hm, dictGet]
  · rw [load_after_save]
  · rw [load_after_save]
  · show dictGet (dictSet dm.store target_year _) source_year = dictGet dm.store source_year
    exact dictGet_dictSet_ne _ _ _ _ h

/-- Witness for C8 (amended) copying from 2024 into 2025. -/
theorem C8_copy_members_semantics_witness :
    (load_data (copy_members_from_year dmA 1 2024 2025) 2 2025).members =
      (load_data dmA 1 2024).members :=
  (C8_copy_members_semantics dmA 1 2 2024 2025 (by decide)).1

theorem seq_update_payments_payments (now : Nat) (year : Int) (member_name : String)
    (paid : Bool) (months : List String) : ∀ dm : DM,
    (load_data (months.foldl
        (fun d month => update_payment d now year member_name month paid) dm)
      now year).payments =
      months.foldl
        (fun P month =>
          dictSet P member_name (dictSet ((dictGet P member_name).getD []) month paid))
        (load_data dm now year).payments := by
  induction months with
  | nil => intro dm; rfl
  | cons mo rest ih =>
      intro dm
      simp only [List.foldl_cons]
      rw [ih (update_payment dm now year member_name mo paid)]
      rw [update_payment_eq, load_after_save]

theorem foldl_setMonths_eq (member_name : String) (paid : Bool) (months : List String) :
    ∀ P : List (String × List (String × Bool)), months ≠ [] →
    months.foldl
      (fun P month =>
        dictSet P member_name (dictSet ((dictGet P member_name).getD []) month paid))
      P =
      dictSet P member_name
        (months.foldl (fun pm month => dictSet pm month paid)
          ((dictGet P member_name).getD [])) := by
  induction months with
  | nil => intro P h; exact absurd rfl h
  | cons mo rest ih =>
      intro P _
      cases rest with
      | nil => simp [List.foldl_cons]
      | cons mo2 rest2 =>
          simp only [List.foldl_cons]
          have hstep := ih
            (dictSet P member_name
              (dictSet ((dictGet P member_name).getD []) mo paid)) (by simp)
          simp only [List.foldl_cons] at hstep
          rw [hstep, dictGet_dictSet_self, dictSet_dictSet_self]
          simp

/-- C2 counterexample: marking an unpaid month via the bulk path
changes the stored flag but appends no history entry, while the
single-toggle path appends one — the bulk path does not preserve the
history-on-change rule. -/
theorem C2_bulk_no_history_counterexample :
    currentFlag (load_data dmA 0 2024) "Alice" "Feb" ≠ true ∧
    (load_data (bulk_update_payments dmA 0 2024 "Alice" ["Feb"] true) 1
        2024).payment_history = (load_data dmA 0 2024).payment_history ∧
    (load_data (update_payment dmA 0 2024 "Alice" "Feb" true) 1
        2024).payment_history ≠ (load_data dmA 0 2024).payment_history := by
  decide

/-- C2 (amended): for a non-empty month list, `bulk_update_payments`
leaves the payments mapping exactly as applying `update_payment` to
each month in order would, but appends no history entries at all, even
for months whose stored flag changes. -/
theorem C2_bulk_update_semantics (dm : DM) (now : Nat) (year : Int)
    (member_name : String) (months : List String) (paid : Bool) (hm : months ≠ []) :
    (load_data (bulk_update_payments dm now year member_name months paid) now
        year).payments =
      (load_data (months.foldl
          (fun d month => update_payment d now year member_name month paid) dm)
        now year).payments ∧
    (load_data (bulk_update_payments dm now year member_name months paid) now
        year).payment_history = (load_data dm now year).payment_history := by
  constructor
  · rw [seq_update_payments_payments now year member_name paid months dm]
    rw [foldl_setMonths_eq member_name paid months (load_data dm now year).payments hm]
    rw [bulk_update_payments_eq, load_after_save]
  · rw [bulk_update_payments_eq, load_after_save]

/-- Witness for C2 (amended) on the spec scenario months Nov, Dec, Jan. -/
theorem C2_bulk_update_semantics_witness :
    (load_data (bulk_update_payments dmA 0 2024 "Bob" ["Nov", "Dec", "Jan"] true) 0
        2024).payments =
      (load_data (["Nov", "Dec", "Jan"].foldl
          (fun d month => update_payment d 0 2024 "Bob" month true) dmA)
        0 2024).payments :=
  (C2_bulk_update_semantics dmA 0 2024 "Bob" ["Nov", "Dec", "Jan"] true
    (by decide)).1

theorem restore_fold_snd (now : Nat) (ys : List (String × YearRecord)) :
    ∀ (dm : DM) (acc : List Int),
    (ys.foldl (restoreStep now) (dm, acc)).2 =
      acc ++ ys.filterMap (fun p => pyInt p.1) := by
  induction ys with
  | nil => intro dm acc; simp
  | cons e rest ih =>
      intro dm acc
      simp only [List.foldl_cons, restoreStep]
      cases hp : pyInt e.1 with
      | some y => rw [ih]; simp [hp]
      | none => rw [ih]; simp [hp]

theorem restore_fold_skip (now : Nat) (ys : List (String × YearRecord)) :
    ∀ st : DM × List Int,
    ys.foldl (restoreStep now) st =
      (ys.filter (fun p => (pyInt p.1).isSome)).foldl (restoreStep now) st := by
  induction ys with
  | nil => intro st; rfl
  | cons e rest ih =>
      intro st
      cases hp : pyInt e.1 with
      | some y =>
          rw [List.filter_cons_of_pos (by simp [hp])]
          rw [List.foldl_cons, List.foldl_cons]
          exact ih _
      | none =>
          rw [List.filter_cons_of_neg (by simp [hp])]
          rw [List.foldl_cons]
          have hstep : restoreStep now st e = st := by simp [restoreStep, hp]
          rw [hstep]
          exact ih st

/-- C3: `restore_from_backup` leaves the store untouched and fails with
the missing-key message when the parsed input lacks `years`; fails on
unparseable input; skips entries whose key does not coerce to an
integer without aborting the rest; succeeds iff at least one year was
restored, and then reports the count and the restored year
identifiers. -/
theorem C3_restore_behaviour (dm : DM) (now : Nat)
    (ys : List (String × YearRecord)) :
    restore_from_backup dm now BackupInput.notJson =
      (dm, false, "Invalid JSON format") ∧
    restore_from_backup dm now (BackupInput.json none) =
      (dm, false, "Invalid backup format: missing \x27years\x27 key") ∧
    restore_from_backup dm now (BackupInput.json (some ys)) =
      restore_from_backup dm now
        (BackupInput.json (some (ys.filter (fun p => (pyInt p.1).isSome)))) ∧
    ((restore_from_backup dm now (BackupInput.json (some ys))).2.1 = true ↔
      ys.filterMap (fun p => pyInt p.1) ≠ []) ∧
    (ys.filterMap (fun p => pyInt p.1) ≠ [] →
      (restore_from_backup dm now (BackupInput.json (some ys))).2.2 =
        "Successfully restored " ++
          pyStrNat (ys.filterMap (fun p => pyInt p.1)).length ++ " year(s): " ++
          String.intercalate ", "
            ((ys.filterMap (fun p => pyInt p.1)).map pyStrInt)) := by
  have hsnd : (ys.foldl (restoreStep now) (dm, [])).2 =
      ys.filterMap (fun p => pyInt p.1) := by
    simpa using restore_fold_snd now ys dm []
  refine ⟨rfl, rfl, ?_, ?_, ?_⟩
  · simp only [restore_from_backup]
    rw [restore_fold_skip now ys (dm, [])]
  · simp only [restore_from_backup]
    rw [hsnd]
    by_cases hc : ys.filterMap (fun p => pyInt p.1) = [] <;> simp [hc]
  · intro hne
    simp only [restore_from_backup]
    rw [hsnd]
    simp [hne]

/-- Witness for C3: restoring a single-year bundle into an empty store
yields the success message with count 1 and the year identifier. -/
theorem C3_restore_behaviour_witness :
    (restore_from_backup { store := [] } 0
        (BackupInput.json (some [("2024", recA)]))).2.2 =
      "Successfully restored " ++
        pyStrNat ([("2024", recA)].filterMap (fun p => pyInt p.1)).length ++
        " year(s): " ++
        String.intercalate ", "
          (([("2024", recA)].filterMap (fun p => pyInt p.1)).map pyStrInt) :=
  (C3_restore_behaviour { store := [] } 0 [("2024", recA)]).2.2.2.2 (by decide)

theorem dictGet_eq_none_of_not_mem {K V : Type} [DecidableEq K]
    (d : List (K × V)) (k : K) (h : k ∉ d.map Prod.fst) : dictGet d k = none := by
  induction d with
  | nil => rfl
  | cons p rest ih =>
      obtain ⟨k', v⟩ := p
      simp only [List.map_cons, List.mem_cons, not_or] at h
      obtain ⟨h1, h2⟩ := h
      have h1' : ¬ k' = k := fun hh => h1 hh.symm
      simp only [dictGet, if_neg h1']
      exact ih h2

theorem restore_json_fst (dm : DM) (now : Nat) (ys : List (String × YearRecord)) :
    (restore_from_backup dm now (BackupInput.json (some ys))).1 =
      (ys.foldl (restoreStep now) (dm, [])).1 := by
  simp only [restore_from_backup]
  by_cases hc : (ys.foldl (restoreStep now) (dm, [])).2 = [] <;> simp [hc]

theorem restore_fold_store_not_mem (now : Nat) (l : List (Int × YearRecord)) :
    ∀ (st : DM × List Int) (y : Int), y ∉ l.map Prod.fst →
    dictGet ((l.map (fun p => (pyStrInt p.1, p.2))).foldl
        (restoreStep now) st).1.store y = dictGet st.1.store y := by
  induction l with
  | nil => intro st y _; rfl
  | cons p rest ih =>
      intro st y h
      obtain ⟨y', r'⟩ := p
      simp only [List.map_cons, List.mem_cons, not_or] at h
      obtain ⟨h1, h2⟩ := h
      simp only [List.map_cons, List.foldl_cons]
      have hstep : restoreStep now st (pyStrInt y', r') =
          (save_data st.1 now y' r', st.2 ++ [y']) := by
        simp [restoreStep, pyInt_pyStrInt]
      rw [hstep, ih _ y h2]
      show dictGet (dictSet st.1.store y' _) y = dictGet st.1.store y
      exact dictGet_dictSet_ne _ _ _ _ h1

theorem restore_fold_store_mem (now : Nat) (l : List (Int × YearRecord)) :
    ∀ (st : DM × List Int) (y : Int) (r : YearRecord),
    (l.map Prod.fst).Nodup → (y, r) ∈ l →
    dictGet ((l.map (fun p => (pyStrInt p.1, p.2))).foldl
        (restoreStep now) st).1.store y =
      some (FileState.good { r with updated_at := now }) := by
  induction l with
  | nil => intro st y r _ hmem; cases hmem
  | cons p rest ih =>
      intro st y r hnd hmem
      obtain ⟨y', r'⟩ := p
      simp only [List.map_cons, List.foldl_cons]
      have hstep : restoreStep now st (pyStrInt y', r') =
          (save_data st.1 now y' r', st.2 ++ [y']) := by
        simp [restoreStep, pyInt_pyStrInt]
      rw [hstep]
      have hsimp : (∀ x : YearRecord, (y', x) ∉ rest) ∧ (rest.map Prod.fst).Nodup := by
        simpa using hnd
      rcases List.mem_cons.mp hmem with heq | hmem'
      · have hy : y = y' := congrArg Prod.fst heq
        have hr : r = r' := congrArg Prod.snd heq
        subst hy
        subst hr
        have hy' : y ∉ rest.map Prod.fst := by
          intro hc
          obtain ⟨q, hq, hfst⟩ := List.mem_map.mp hc
          obtain ⟨qa, qb⟩ := q
          have hfst' : qa = y := hfst
          subst hfst'
          exact hsimp.1 qb hq
        rw [restore_fold_store_not_mem now rest _ y hy']
        show dictGet (dictSet st.1.store y (FileState.good _)) y = _
        rw [dictGet_dictSet_self]
      · exact ih _ y r hsimp.2 hmem'

theorem load_data_good (dm : DM) (now : Nat) (year : Int) (r : YearRecord)
    (h : dictGet dm.store year = some (FileState.good r)) :
    load_data dm now year = r := by
  simp [load_data, h]

theorem load_data_none (dm : DM) (now : Nat) (year : Int)
    (h : dictGet dm.store year = none) :
    load_data dm now year = defaultRecord year now := by
  simp [load_data, h]

/-- C1: serialising a full backup with `create_full_backup` and
restoring it with `restore_from_backup` into a fresh store reproduces,
for every year, the structured fields of that year's record — members,
payments, payment history and settings — exactly. -/
theorem C1_backup_restore_roundtrip (dm : DM) (now now2 now3 : Nat)
    (h : (dm.store.map Prod.fst).Nodup) (y : Int) :
    (load_data (restore_from_backup { store := [] } now2
        (BackupInput.json (some (create_full_backup dm now).years))).1 now3
      y).members = (load_data dm now y).members ∧
    (load_data (restore_from_backup { store := [] } now2
        (BackupInput.json (some (create_full_backup dm now).years))).1 now3
      y).payments = (load_data dm now y).payments ∧
    (load_data (restore_from_backup { store := [] } now2
        (BackupInput.json (some (create_full_backup dm now).years))).1 now3
      y).payment_history = (load_data dm now y).payment_history ∧
    (load_data (restore_from_backup { store := [] } now2
        (BackupInput.json (some (create_full_backup dm now).years))).1 now3
      y).settings = (load_data dm now y).settings := by
  have hperm := List.perm_insertionSort (fun a b => a ≤ b) (dm.store.map Prod.fst)
  have hnd : (get_available_years dm).Nodup := (List.Perm.nodup_iff hperm).mpr h
  have hyears : (create_full_backup dm now).years =
      ((get_available_years dm).map (fun z => (z, load_data dm now z))).map
        (fun p => (pyStrInt p.1, p.2)) := by
    rw [List.map_map]
    rfl
  have hkeys : ((get_available_years dm).map
      (fun z => (z, load_data dm now z))).map Prod.fst = get_available_years dm := by
    rw [List.map_map]
    exact List.map_id _
  rw [hyears, restore_json_fst]
  by_cases hy : y ∈ get_available_years dm
  · have hmem : (y, load_data dm now y) ∈
        (get_available_years dm).map (fun z => (z, load_data dm now z)) :=
      List.mem_map.mpr ⟨y, hy, rfl⟩
    have hget := restore_fold_store_mem now2
      ((get_available_years dm).map (fun z => (z, load_data dm now z)))
      ({ store := [] }, []) y (load_data dm now y)
      (by rw [hkeys]; exact hnd) hmem
    rw [load_data_good _ now3 y _ hget]
    exact ⟨rfl, rfl, rfl, rfl⟩
  · have hnot : y ∉ ((get_available_years dm).map
        (fun z => (z, load_data dm now z))).map Prod.fst := by
      rw [hkeys]
      exact hy
    have hget := restore_fold_store_not_mem now2
      ((get_available_years dm).map (fun z => (z, load_data dm now z)))
      ({ store := [] }, []) y hnot
    have hget' : dictGet (((((get_available_years dm).map
        (fun z => (z, load_data dm now z))).map
          (fun p => (pyStrInt p.1, p.2))).foldl (restoreStep now2)
        ({ store := [] }, [])).1).store y = none := by
      rw [hget]
      rfl
    have hy2 : y ∉ dm.store.map Prod.fst := fun hc => hy (hperm.mem_iff.mpr hc)
    rw [load_data_none _ now3 y hget',
      load_data_none dm now y (dictGet_eq_none_of_not_mem dm.store y hy2)]
    exact ⟨rfl, rfl, rfl, rfl⟩

/-- Witness for C1 on the sample one-year store. -/
theorem C1_backup_restore_roundtrip_witness :
    (load_data (restore_from_backup { store := [] } 5
        (BackupInput.json (some (create_full_backup dmA 4).years))).1 6
      2024).payments = (load_data dmA 4 2024).payments :=
  (C1_backup_restore_roundtrip dmA 4 5 6 (by decide) 2024).2.1
